import Mathlib

/- Verification development for the event-detection pipeline
(src/factfinder/src/event_detection.py, class EventDetection).

Modelling conventions:
  * pandas DataFrames are lists of row structures, in row order;
  * float columns are modelled with exact rationals (the source data holds
    integer populations and small decimal weights);
  * a NaN-valued column entry (0/0 in min-max normalization) is Option.none;
  * nullable id columns (NaN ids) are Option Nat, and pandas equality on, or
    dict lookup with, a NaN key is modelled by the none case (never equal /
    KeyError);
  * the external clustering capability (BERTopic + UMAP + HDBSCAN) is an
    opaque oracle parameter giving per-document labels and the cluster
    summary table;
  * an uncaught exception inside the pipeline is modelled by Except.error
    (for the per-object extraction) or a none overall result of run. -/

attribute [local semireducible] Rat.add Rat.mul Rat.sub Rat.inv Rat.ofScientific

/-! ## Generic list helpers -/

/-- Distinct elements of a list in order of first occurrence, as pandas
Series.unique and Python set construction keep first occurrences. -/
def dedupFirst {α : Type} [DecidableEq α] (l : List α) : List α :=
  l.foldl (fun acc a => if a ∈ acc then acc else acc ++ [a]) []

/-- All ordered pairs (earlier, later) of a list, as itertools.combinations(l, 2). -/
def combos {α : Type} : List α → List (α × α)
  | [] => []
  | a :: l => (l.map (fun b => (a, b))) ++ combos l

/-- Insert into a list sorted by the boolean comparator le. -/
def insertLe {α : Type} (le : α → α → Bool) (a : α) : List α → List α
  | [] => [a]
  | b :: l => if le a b then a :: b :: l else b :: insertLe le a l

/-- Insertion sort by the boolean comparator le (ascending). -/
def sortLe {α : Type} (le : α → α → Bool) (l : List α) : List α :=
  l.foldr (insertLe le) []

/-- Join a list of strings-as-char-lists with a separator, as str.join. -/
def joinSep (sep : List Char) : List (List Char) → List Char
  | [] => []
  | [x] => x
  | x :: xs => x ++ sep ++ joinSep sep xs

/-- Join a list of strings with a comma-space separator, as ", ".join. -/
def joinComma : List String → String
  | [] => ""
  | [x] => x
  | x :: xs => x ++ ", " ++ joinComma xs

/-- Lexicographic strict comparison of char lists by code point, as Python
compares strings. -/
def charListLtB : List Char → List Char → Bool
  | [], [] => false
  | [], _ :: _ => true
  | _ :: _, [] => false
  | a :: as, b :: bs => if a < b then true else if b < a then false else charListLtB as bs

/-- Boolean (non-strict) string comparison used for ascending sorting. -/
def strLeB (a b : String) : Bool := !(charListLtB b.data a.data)

/-- Minimum of a list (none when empty), as a pandas column min. -/
def listMin {α : Type} [LinearOrder α] : List α → Option α
  | [] => none
  | x :: xs => some (xs.foldl min x)

/-- Maximum of a list (none when empty), as a pandas column max. -/
def listMax {α : Type} [LinearOrder α] : List α → Option α
  | [] => none
  | x :: xs => some (xs.foldl max x)

/-- Decimal digits of a natural number, as Python str(n). -/
def natChars (n : Nat) : List Char := (Nat.repr n).data

/-- Decimal digits of an integer with a leading minus sign when negative,
as Python str(i). -/
def intChars (i : Int) : List Char := (Int.repr i).data

/-! ## Data model -/

/-- Spatial levels, source list self.levels = ['building','link','road','global']. -/
inductive Level where
  | building
  | link
  | road
  | global
deriving DecidableEq, Repr

/-- The source's self.levels list, finest first. -/
def levelsOrder : List Level := [Level.building, Level.link, Level.road, Level.global]

/-- Level name as it appears in composite event ids. -/
def levelChars : Level → List Char
  | Level.building => "building".data
  | Level.link => "link".data
  | Level.road => "road".data
  | Level.global => "global".data

/-- Next coarser level: self.levels[self.levels.index(event_level) + 1]
(only reached for building and link in the source; identity on global). -/
def nextLevel : Level → Level
  | Level.building => Level.link
  | Level.link => Level.road
  | Level.road => Level.global
  | Level.global => Level.global

/-- The strictly finer levels: levels[:levels.index(lvl)] in _rebalance_events. -/
def levelsBefore (lvl : Level) : List Level :=
  levelsOrder.takeWhile (fun l => decide (l ≠ lvl))

/-- A row of the buildings table after _get_buildings: index/building_id,
population_balanced, and the nearest-joined link and road ids (NaN possible). -/
structure Building where
  building_id : Nat
  population_balanced : ℚ
  link_id : Option Nat
  road_id : Option Nat
deriving DecidableEq, Repr

/-- A raw message row as it enters _preprocess: the spatial-join results
against buildings and links are inputs here (geometry is opaque and the
joins are external geometric operations). -/
structure RawMsg where
  message_id : Nat
  text : Option String
  building_id : Option Nat
  linkDirect : Option Nat
  roadDirect : Option Nat
  date_time : Int
  cats : String
deriving DecidableEq, Repr

/-- A preprocessed message row (output columns of _preprocess, line 105-107). -/
structure Msg where
  message_id : Nat
  text : String
  building_id : Option Nat
  link_id : Option Nat
  road_id : Option Nat
  date_time : Int
  cats : String
  importance : ℚ
  global_id : Nat
deriving DecidableEq, Repr

/-- One row of topic_model.get_topic_info(): cluster label, Name suffix
(the words after the label prefix), Count, Representative_Docs.
Modelled from the spec: the summarize() capability of the external
clustering contract; the Name column follows the BERTopic convention
name = str(label) + underscore + words, which the spec relies on when it
says the noise label is -1 and any name string beginning with it. -/
structure SummaryRow where
  topic : Int
  nameSuffix : List Char
  count : Nat
  repDocs : List String
deriving DecidableEq, Repr

/-- The external clustering capability: given the document texts it either
fails (TypeError in fit_transform: dimensionality cannot be reduced) or
yields per-document labels (after the reduce_outliers refinement attempt)
together with the summary table. Modelled from the spec (section 6):
cluster/refine_outliers/summarize are external. -/
def Oracle : Type := List String → Option (List Int × List SummaryRow)

/-- An event row as built inside _event_from_object (before _get_events
renames and projects the columns). -/
structure Event0 where
  name : List Char
  repDocs : List String
  level : Level
  id : List Char
  count : Nat
  potential_population : ℚ
  message_ids : List Nat
  duration : Int
  category : String
  importance : ℚ
deriving DecidableEq, Repr

/-- A finalized event row (columns selected at the end of _get_events).
The normalized intensity and duration columns are kept here although the
final projection drops them: they feed the risk column and claims quantify
over them. -/
structure EventF where
  name : List Char
  docs : List Char
  level : Level
  id : List Char
  population : ℚ
  importance : ℚ
  risk : Option ℚ
  message_ids : List Char
  intensityN : Option ℚ
  durationN : Option ℚ
deriving DecidableEq, Repr

/-- A connection row: weight, endpoint event ids a and b (geometry opaque). -/
structure Conn where
  weight : Nat
  a : List Char
  b : List Char
deriving DecidableEq, Repr

/-- A message row prepared for export by _prepare_messages. -/
structure MessageF where
  message_id : Nat
  text : String
  date_time : Int
  block : String
deriving DecidableEq, Repr

/-- The value returned by run, together with the coordinate reference
systems assigned to the three tables. -/
structure RunOutput where
  messages : List MessageF
  messagesCrs : Nat
  events : List EventF
  eventsCrs : Nat
  connections : List Conn
  connectionsCrs : Nat
deriving DecidableEq, Repr

/-! ## Pipeline: preprocessing (_preprocess, lines 93-108) -/

/-- The fixed category-to-importance lookup table self.functions_weights. -/
def functionsWeights : List (String × ℚ) :=
  [("Безопасность", 1), ("Другое", 1/10), ("Благоустройство", 1/2), ("ЖКХ", 1/2),
   ("ТКО", 1/2), ("Дороги", 1/2), ("Экология", 1/2), ("Социальная защита", 1/2),
   ("Строительство", 1/2), ("Транспорт", 1/2), ("Здравоохранение", 1/2),
   ("Энергетика", 1/2), ("Образование", 1/2)]

/-- Importance weight of a category. The source applies Series.replace,
which keeps an unmatched category string unchanged (a non-numeric cell);
that degenerate cell is not representable in a rational column and is
modelled as 0 (no claim depends on it). -/
def importanceOfCat (c : String) : ℚ :=
  ((functionsWeights.find? (fun p => p.1 == c)).map (fun p => p.2)).getD 0

/-- Join the link/road assignment of the message's own building
(messages.join(self.buildings[['link_id','road_id']], on='building_id')). -/
def buildingLinkOf (bs : List Building) (b : Option Nat) : Option Nat :=
  match b with
  | none => none
  | some bid => match bs.find? (fun bb => bb.building_id == bid) with
    | none => none
    | some bb => bb.link_id

/-- Road id inherited from the message's building. -/
def buildingRoadOf (bs : List Building) (b : Option Nat) : Option Nat :=
  match b with
  | none => none
  | some bid => match bs.find? (fun bb => bb.building_id == bid) with
    | none => none
    | some bb => bb.road_id

/-- One row of _preprocess after the joins and the fill of missing link_id
and road_id from the building assignment (lines 98-104): a value obtained
by the direct spatial join is kept; only NaN cells are filled. -/
def joinRow (bs : List Building) (r : RawMsg) : RawMsg :=
  { r with
    linkDirect := match r.linkDirect with
      | some l => some l
      | none => buildingLinkOf bs r.building_id
    roadDirect := match r.roadDirect with
      | some l => some l
      | none => buildingRoadOf bs r.building_id }

/-- The _preprocess stage: joins, fill from building, column selection with
dropna(subset='text'), importance lookup, and the constant global_id = 0. -/
def preprocess (bs : List Building) (raws : List RawMsg) : List Msg :=
  (raws.map (joinRow bs)).filterMap (fun j =>
    match j.text with
    | none => none
    | some t => some
      { message_id := j.message_id
        text := t
        building_id := j.building_id
        link_id := j.linkDirect
        road_id := j.roadDirect
        date_time := j.date_time
        cats := j.cats
        importance := importanceOfCat j.cats
        global_id := 0 })

/-! ## Pipeline: population table (_collect_population, lines 80-91) -/

/-- Pandas equality between two nullable cells: a NaN cell equals nothing. -/
def optEq (a b : Option Nat) : Bool :=
  match a, b with
  | some x, some y => x == y
  | _, _ => false

/-- The id cell of a message at a given level. -/
def levelId (lvl : Level) (m : Msg) : Option Nat :=
  match lvl with
  | Level.building => m.building_id
  | Level.link => m.link_id
  | Level.road => m.road_id
  | Level.global => some m.global_id

/-- The id cell of a building row at a given level (only building and link
are queried by the source's parent lookup; road and global are included for
totality). -/
def buildingLevelId (lvl : Level) (b : Building) : Option Nat :=
  match lvl with
  | Level.building => some b.building_id
  | Level.link => b.link_id
  | Level.road => b.road_id
  | Level.global => some 0

/-- Lookup in the nested population mapping pops built by _collect_population:
pops['building'] is keyed by the buildings index, pops['link'] and
pops['road'] are groupby sums (NaN group keys dropped), pops['global'][0] is
the total. A NaN key or an absent key is a KeyError, modelled as none. -/
def popLookup (bs : List Building) (lvl : Level) (oid : Option Nat) : Option ℚ :=
  match oid with
  | none => none
  | some o =>
    match lvl with
    | Level.building => (bs.find? (fun b => b.building_id == o)).map (fun b => b.population_balanced)
    | Level.link =>
      let grp := bs.filter (fun b => optEq b.link_id (some o))
      if grp.isEmpty then none else some ((grp.map (fun b => b.population_balanced)).sum)
    | Level.road =>
      let grp := bs.filter (fun b => optEq b.road_id (some o))
      if grp.isEmpty then none else some ((grp.map (fun b => b.population_balanced)).sum)
    | Level.global =>
      if o == 0 then some ((bs.map (fun b => b.population_balanced)).sum) else none

/-! ## Pipeline: per-object event extraction (_event_from_object, lines 123-171) -/

/-- The potential-population assignment of _event_from_object
(lines 146-161), returning the (possibly reclassified) level and the
potential population, or none when the source raises an uncaught KeyError
(parent id is NaN, or a population key is missing).

Branches of the source:
  * event_level == 'global' (line 161) or 'road' (line 159): population 1;
  * otherwise the first unique parent id of the buildings rows at this
    object is taken (line 150); an empty selection raises IndexError,
    caught at line 155: level reclassified to 'global', population 1;
  * a zero denominator raises ZeroDivisionError, caught at line 153:
    population 1 (the populations in the data are integral);
  * otherwise population = pop[level][oid] / pop[parent_level][parent]. -/
def popAssign (bs : List Building) (lvl : Level) (oid : Option Nat) : Option (Level × ℚ) :=
  match lvl with
  | Level.global => some (Level.global, 1)
  | Level.road => some (Level.road, 1)
  | _ =>
    let higher := nextLevel lvl
    let parents := (bs.filter (fun b => optEq (buildingLevelId lvl b) oid)).map (buildingLevelId higher)
    match parents.head? with
    | none => some (Level.global, 1)
    | some hid =>
      match popLookup bs lvl oid, popLookup bs higher hid with
      | some n, some d => if d = 0 then some (lvl, 1) else some (lvl, n / d)
      | _, _ => none

/-- The member messages of an object at a level:
messages[messages[target_column] == object_id] (line 128). -/
def localMessages (msgs : List Msg) (lvl : Level) (oid : Option Nat) : List Msg :=
  msgs.filter (fun m => optEq (levelId lvl m) oid)

/-- The rows of the full message table whose message_id is in the given
list (messages[messages['message_id'].isin(x)]). -/
def membersOf (msgs : List Msg) (ids : List Nat) : List Msg :=
  msgs.filter (fun m => decide (m.message_id ∈ ids))

/-- Day span between the earliest and the latest member timestamp
(line 165-166). The source would produce NaT on an empty member set; the
empty case is modelled as 0 (it needs a summary row whose label was
assigned to no document). -/
def durationOf (members : List Msg) : Int :=
  let ds := members.map (fun m => m.date_time)
  ((listMax ds).getD 0) - ((listMin ds).getD 0)

/-- Number of occurrences of a category among the member categories. -/
def countIn (l : List String) (c : String) : Nat :=
  (l.filter (fun d => d == c)).length

/-- The largest occurrence count in the list (0 when empty). -/
def maxCount (l : List String) : Nat :=
  (l.map (countIn l)).foldl max 0

/-- Series.mode(): the distinct values attaining the maximal occurrence
count, in ascending order. -/
def modesList (l : List String) : List String :=
  sortLe strLeB ((dedupFirst l).filter (fun c => countIn l c == maxCount l))

/-- The category cell of an event row:
', '.join(messages[...].cats.mode().tolist()) (line 167). -/
def eventCategory (l : List String) : String := joinComma (modesList l)

/-- Mean of the member importance weights (line 168); mean of an empty
set is NaN in pandas, modelled as 0 (same degenerate case as durationOf). -/
def meanImportance (members : List Msg) : ℚ :=
  match members with
  | [] => 0
  | _ => ((members.map (fun m => m.importance)).sum) / (members.length : ℚ)

/-- String form of an object id cell as used inside composite event ids
(str(object_id), line 144). The ids are opaque; the numeric formatting of
pandas floats is not reproduced. -/
def oidChars (oid : Option Nat) : List Char :=
  match oid with
  | some o => natChars o
  | none => "nan".data

/-- The _event_from_object operation. Returns
  * Except.error () when the population assignment raises an uncaught
    KeyError (the run aborts),
  * Except.ok none when the object is skipped (fewer than 5 documents,
    line 131, or the clustering fails with TypeError, line 134),
  * Except.ok (some rows) with one event row per summary-table row.
The composite id (line 145) uses the level string before any
reclassification; the level column (line 157) is the reclassified one. -/
def eventFromObject (oracle : Oracle) (bs : List Building) (msgs : List Msg)
    (oid : Option Nat) (lvl : Level) : Except Unit (Option (List Event0)) :=
  let locals := localMessages msgs lvl oid
  let ids := locals.map (fun m => m.message_id)
  let docs := locals.map (fun m => m.text)
  if 5 ≤ docs.length then
    match oracle docs with
    | none => Except.ok none
    | some (topics, rows) =>
      match popAssign bs lvl oid with
      | none => Except.error ()
      | some (lvl2, pp) =>
        Except.ok (some (rows.map (fun r =>
          let memberIds := ((ids.zip topics).filter (fun p => p.2 == r.topic)).map (fun p => p.1)
          let members := membersOf msgs memberIds
          { name := intChars r.topic ++ '_' :: r.nameSuffix
            repDocs := r.repDocs
            level := lvl2
            id := intChars r.topic ++ '_' :: (levelChars lvl ++ '_' :: oidChars oid)
            count := r.count
            potential_population := pp
            message_ids := memberIds
            duration := durationOf members
            category := eventCategory (members.map (fun m => m.cats))
            importance := meanImportance members })))
  else Except.ok none

/-! ## Pipeline: all-level extraction and finalization (_get_events, lines 173-194) -/

/-- The distinct id cells of the message table at a level
(messages[level_id].unique().tolist(), line 182). -/
def uniqueIds (msgs : List Msg) (lvl : Level) : List (Option Nat) :=
  dedupFirst (msgs.map (levelId lvl))

/-- The nested list comprehension of line 182: every level in
reversed(self.levels), every distinct object id at that level, in order.
An uncaught exception in any cell aborts the whole run. -/
def extractAll (oracle : Oracle) (bs : List Building) (msgs : List Msg) :
    Except Unit (List (Option (List Event0))) :=
  (levelsOrder.reverse.flatMap (fun lvl =>
    (uniqueIds msgs lvl).map (fun oid => (lvl, oid)))).mapM
    (fun p => eventFromObject oracle bs msgs p.2 p.1)

/-- Min-max normalization of a numeric column (lines 190-191):
(x - min) / (max - min) elementwise. When max = min every entry is 0/0,
a float NaN, modelled as none. -/
def normCol (xs : List ℚ) : List (Option ℚ) :=
  let m := (listMin xs).getD 0
  let M := (listMax xs).getD 0
  if M = m then xs.map (fun _ => none)
  else xs.map (fun x => some ((x - m) / (M - m)))

/-- The docs column transform of line 188: each representative text is
replaced by the message_id of its first occurrence in the message table;
a text absent from the table raises ValueError (none aborts the run). -/
def docIdsStr (texts : List String) (ids : List Nat) (reps : List String) :
    Option (List Char) :=
  (reps.mapM (fun t => (texts.findIdx? (fun u => u == t)).bind (fun i => ids[i]?))).map
    (fun l => joinSep (", ".data) (l.map natChars))

/-- The risk column (line 192): intensity * duration * importance *
population, with float NaN propagation through the normalized factors. -/
def riskOf (iN dN : Option ℚ) (imp pop : ℚ) : Option ℚ :=
  match iN, dN with
  | some i, some d => some (i * d * imp * pop)
  | _, _ => none

/-- Finalization of the concatenated event list (lines 184-193): renames
(Count to intensity, potential_population to population), the docs and
message_ids stringifications, min-max normalization of intensity and
duration, the risk column, and the final column selection. An empty event
list is a pandas concat error (none); so is an unresolvable representative
text. Both normalizations happen here, before outlier filtering. -/
def finalizeEvents (msgs : List Msg) (evs : List Event0) : Option (List EventF) :=
  if evs.isEmpty then none
  else
    let texts := msgs.map (fun m => m.text)
    let mids := msgs.map (fun m => m.message_id)
    let intN := normCol (evs.map (fun e => (e.count : ℚ)))
    let durN := normCol (evs.map (fun e => (e.duration : ℚ)))
    ((evs.zip (intN.zip durN)).mapM (fun p =>
      (docIdsStr texts mids p.1.repDocs).map (fun d =>
        { name := p.1.name
          docs := d
          level := p.1.level
          id := p.1.id
          population := p.1.potential_population
          importance := p.1.importance
          risk := riskOf p.2.1 p.2.2 p.1.importance p.1.potential_population
          message_ids := joinSep (", ".data) (p.1.message_ids.map natChars)
          intensityN := p.2.1
          durationN := p.2.2 } )))

/-! ## Pipeline: connections (_get_event_connections, lines 196-214) -/

/-- Number of distinct characters shared by two strings:
len(set(c[0]) & set(c[1])) where c ranges over pairs of message_ids cells.
At this point of the pipeline the message_ids cells are the comma-joined
strings produced at line 189, so the Python set intersection is an
intersection of character sets. -/
def charInterCard (x y : List Char) : Nat :=
  ((dedupFirst x).filter (fun c => decide (c ∈ y))).length

/-- The _get_event_connections operation: weights from pairwise character
intersections of the message_ids strings, endpoint ids from the same pair
enumeration, pairs with weight 0 dropped. With fewer than two events the
column renaming of line 206 raises (three names for an empty frame),
modelled as none. The connecting geometry is opaque and the resulting
frame is assigned the fixed crs 32636 (recorded in RunOutput). -/
def getConnections (evs : List EventF) : Option (List Conn) :=
  if evs.length < 2 then none
  else some (((combos evs).map (fun p =>
    { weight := charInterCard p.1.message_ids p.2.message_ids
      a := p.1.id
      b := p.2.id : Conn })).filter (fun c => decide (0 < c.weight)))

/-! ## Pipeline: outlier filtering and export (_filter_outliers, _prepare_messages) -/

/-- Whether a string matches the noise pattern r'^-1.*' of line 257:
re.match anchors at the start, so this is exactly having '-1' as the first
two characters. -/
def noiseB (l : List Char) : Bool := l.take 2 == ['-', '1']

/-- The _filter_outliers stage (lines 253-264): drop events whose name
matches the noise pattern and connections whose endpoint a or b matches it. -/
def filterOutliers (evs : List EventF) (conns : List Conn) :
    List EventF × List Conn :=
  (evs.filter (fun e => !noiseB e.name),
   (conns.filter (fun c => !noiseB c.a)).filter (fun c => !noiseB c.b))

/-- The _prepare_messages stage (lines 266-275): column selection and
rename of cats to block; the geometry is converted to crs 4326. -/
def prepareMessages (msgs : List Msg) : List MessageF :=
  msgs.map (fun m =>
    { message_id := m.message_id
      text := m.text
      date_time := m.date_time
      block := m.cats })

/-! ## Pipeline: the run entry point (run, lines 277-298) -/

/-- The run operation. The topic model is created once from
min_event_size (_create_model, line 181); the messages, roads and
buildings acquisition is external, so the buildings table and the
spatial-join results carried by the raw messages are inputs. The stages
are exactly those invoked by the source run: preprocess, get_events,
get_event_connections, filter_outliers, prepare_messages. The rebalancing
methods _rebalance and _rebalance_events exist in the class but run never
invokes them. The events frame is assigned crs 4326 (line 186), the
connections frame crs 32636 (line 213), and the messages are converted to
crs 4326 (line 274); city_crs only parameterizes the road acquisition. -/
def runPipeline (factory : Nat → Oracle) (bs : List Building)
    (raws : List RawMsg) (cityName : String) (cityCrs : Nat) (minEventSize : Nat) :
    Option RunOutput :=
  let oracle := factory minEventSize
  let msgs := preprocess bs raws
  match extractAll oracle bs msgs with
  | Except.error _ => none
  | Except.ok cells =>
    match finalizeEvents msgs ((cells.filterMap id).flatten) with
    | none => none
    | some evs =>
      match getConnections evs with
      | none => none
      | some conns =>
        some { messages := prepareMessages msgs
               messagesCrs := 4326
               events := (filterOutliers evs conns).1
               eventsCrs := 4326
               connections := (filterOutliers evs conns).2
               connectionsCrs := 32636 }

/-! ## The rebalancing operation (_rebalance, lines 216-231; dead code in run) -/

/-- The _rebalance operation. Source semantics: take the b endpoints of
connections with a == event_id; if any exist, sum the potential populations
of events whose id is among them and whose level is in the given list; if
the sum does not exceed the event population subtract it, otherwise redo
the query in the reverse direction (b == event_id, collect a) and subtract
that unguarded sum; with no outgoing connections return the population
unchanged. -/
def rebalance (conns : List Conn) (events : List Event0) (levels : List Level)
    (eventPopulation : ℚ) (eventId : List Char) : ℚ :=
  let out := (conns.filter (fun c => c.a == eventId)).map (fun c => c.b)
  if 0 < out.length then
    let accounted := ((events.filter (fun e =>
      decide (e.id ∈ out) && decide (e.level ∈ levels))).map
      (fun e => e.potential_population)).sum
    if accounted ≤ eventPopulation then eventPopulation - accounted
    else
      let out2 := (conns.filter (fun c => c.b == eventId)).map (fun c => c.a)
      let accounted2 := ((events.filter (fun e =>
        decide (e.id ∈ out2) && decide (e.level ∈ levels))).map
        (fun e => e.potential_population)).sum
      eventPopulation - accounted2
  else eventPopulation

/-! ## Spec-side definitions for refinement comparisons -/

/-- Modelled from the spec: the connection weight of section 4.4, the size
of the intersection of the two events' member-message-id sets. -/
def specSharedCount (a b : List Nat) : Nat :=
  ((dedupFirst a).filter (fun x => decide (x ∈ b))).length

/-- Modelled from the spec: the category of section 4.3, the statistical
mode of the member categories with ties broken by the first-encountered
value. -/
def specCategory (l : List String) : String :=
  (((dedupFirst l).filter (fun c => countIn l c == maxCount l)).head?).getD ""

/-! ## Concrete run instances used by the closed theorems -/

/-- A message with neither geometry match nor building: it participates
only at the global level. -/
def mkRawGlobal (i : Nat) : RawMsg :=
  { message_id := i
    text := some (Nat.repr i)
    building_id := none
    linkDirect := none
    roadDirect := none
    date_time := 0
    cats := "c" }

/-- A message located in building 0. -/
def mkRawB0 (i : Nat) : RawMsg :=
  { message_id := i
    text := some (Nat.repr i)
    building_id := some 0
    linkDirect := none
    roadDirect := none
    date_time := 0
    cats := "c" }

/-- Five global-only messages with ids 1..5. -/
def fiveGlobalRaws : List RawMsg :=
  [mkRawGlobal 1, mkRawGlobal 2, mkRawGlobal 3, mkRawGlobal 4, mkRawGlobal 5]

/-- Six global-only messages with ids 1..6. -/
def sixGlobalRaws : List RawMsg :=
  [mkRawGlobal 1, mkRawGlobal 2, mkRawGlobal 3, mkRawGlobal 4, mkRawGlobal 5,
   mkRawGlobal 6]

/-- Five messages in building 0 with ids 1..5. -/
def fiveB0Raws : List RawMsg :=
  [mkRawB0 1, mkRawB0 2, mkRawB0 3, mkRawB0 4, mkRawB0 5]

/-- Two buildings on link 0 / road 0 with populations 2 and 3. -/
def twoBuildings : List Building :=
  [{ building_id := 0, population_balanced := 2, link_id := some 0, road_id := some 0 },
   { building_id := 1, population_balanced := 3, link_id := some 0, road_id := some 0 }]

/-- A clustering factory that splits five documents into clusters of sizes
2, 2 and 1 with labels 0, 1, 2. -/
def factorySplit221 : Nat → Oracle := fun _ docs =>
  some ((([0, 0, 1, 1, 2] : List Int).take docs.length),
    [{ topic := 0, nameSuffix := "a".data, count := 2, repDocs := [] },
     { topic := 1, nameSuffix := "b".data, count := 2, repDocs := [] },
     { topic := 2, nameSuffix := "c".data, count := 1, repDocs := [] }])

/-- A clustering factory that puts every document into the single cluster 0. -/
def factoryOneCluster : Nat → Oracle := fun _ docs =>
  some (docs.map (fun _ => (0 : Int)),
    [{ topic := 0, nameSuffix := "a".data, count := docs.length, repDocs := [] }])

/-- A clustering factory with a noise cluster of size 1 and clusters of
sizes 2 and 3 over six documents. -/
def factoryNoise123 : Nat → Oracle := fun _ docs =>
  some ((([-1, 0, 0, 1, 1, 1] : List Int).take docs.length),
    [{ topic := -1, nameSuffix := "a".data, count := 1, repDocs := [] },
     { topic := 0, nameSuffix := "b".data, count := 2, repDocs := [] },
     { topic := 1, nameSuffix := "c".data, count := 3, repDocs := [] }])

/-- A clustering factory that splits six documents into two clusters of
size 3, regardless of the configured minimum cluster size. -/
def factoryHalves : Nat → Oracle := fun _ docs =>
  some ((([0, 0, 0, 1, 1, 1] : List Int).take docs.length),
    [{ topic := 0, nameSuffix := "a".data, count := 3, repDocs := [] },
     { topic := 1, nameSuffix := "b".data, count := 3, repDocs := [] }])

/-! ## Named projections of RunOutput used in closed statements -/

/-- Population column of the returned events table. -/
def outPopulations (o : RunOutput) : List ℚ := o.events.map (fun e => e.population)

/-- Normalized intensity column of the returned events table. -/
def outIntensities (o : RunOutput) : List (Option ℚ) :=
  o.events.map (fun e => e.intensityN)

/-- Stringified message_ids column of the returned events table. -/
def outMsgIdStrs (o : RunOutput) : List (List Char) :=
  o.events.map (fun e => e.message_ids)

/-- The returned connections table. -/
def outConns (o : RunOutput) : List Conn := o.connections

/-- Number of events in the returned events table. -/
def outEventsCount (o : RunOutput) : Nat := o.events.length

/-- The crs assigned to the connections table. -/
def outConnectionsCrs (o : RunOutput) : Nat := o.connectionsCrs

/-- The crs assigned to the events table. -/
def outEventsCrs (o : RunOutput) : Nat := o.eventsCrs

/-- The crs assigned to the messages table. -/
def outMessagesCrs (o : RunOutput) : Nat := o.messagesCrs

/-! ## Helper lemmas about folds, sorting and deduplication -/

lemma foldl_min_mem {α : Type} [LinearOrder α] (x : α) (l : List α) :
    l.foldl min x ∈ x :: l := by
  induction l generalizing x with
  | nil => simp
  | cons a t ih =>
    have h := ih (min x a)
    rcases List.mem_cons.1 h with h1 | h1
    · rcases min_choice x a with hc | hc <;> rw [List.foldl_cons, h1, hc] <;> simp
    · simp [List.foldl_cons, List.mem_cons.2 (Or.inr (List.mem_cons.2 (Or.inr h1)))]

lemma foldl_min_le_init {α : Type} [LinearOrder α] (x : α) (l : List α) :
    l.foldl min x ≤ x := by
  induction l generalizing x with
  | nil => exact le_refl x
  | cons a t ih =>
    rw [List.foldl_cons]
    exact le_trans (ih (min x a)) (min_le_left x a)

lemma foldl_min_le {α : Type} [LinearOrder α] (x y : α) (l : List α)
    (h : y ∈ x :: l) : l.foldl min x ≤ y := by
  induction l generalizing x with
  | nil => simp at h; simp [h]
  | cons a t ih =>
    rw [List.foldl_cons]
    rcases List.mem_cons.1 h with rfl | h1
    · exact le_trans (foldl_min_le_init (min y a) t) (min_le_left y a)
    · rcases List.mem_cons.1 h1 with rfl | h2
      · exact le_trans (foldl_min_le_init (min x y) t) (min_le_right x y)
      · exact ih (min x a) (List.mem_cons.2 (Or.inr h2))

lemma foldl_max_mem {α : Type} [LinearOrder α] (x : α) (l : List α) :
    l.foldl max x ∈ x :: l := by
  induction l generalizing x with
  | nil => simp
  | cons a t ih =>
    have h := ih (max x a)
    rcases List.mem_cons.1 h with h1 | h1
    · rcases max_choice x a with hc | hc <;> rw [List.foldl_cons, h1, hc] <;> simp
    · simp [List.foldl_cons, List.mem_cons.2 (Or.inr (List.mem_cons.2 (Or.inr h1)))]

lemma le_foldl_max_init {α : Type} [LinearOrder α] (x : α) (l : List α) :
    x ≤ l.foldl max x := by
  induction l generalizing x with
  | nil => exact le_refl x
  | cons a t ih =>
    rw [List.foldl_cons]
    exact le_trans (le_max_left x a) (ih (max x a))

lemma le_foldl_max {α : Type} [LinearOrder α] (x y : α) (l : List α)
    (h : y ∈ x :: l) : y ≤ l.foldl max x := by
  induction l generalizing x with
  | nil => simp at h; simp [h]
  | cons a t ih =>
    rw [List.foldl_cons]
    rcases List.mem_cons.1 h with rfl | h1
    · exact le_trans (le_max_left y a) (le_foldl_max_init (max y a) t)
    · rcases List.mem_cons.1 h1 with rfl | h2
      · exact le_trans (le_max_right x y) (le_foldl_max_init (max x y) t)
      · exact ih (max x a) (List.mem_cons.2 (Or.inr h2))

lemma listMin_spec {α : Type} [LinearOrder α] (x : α) (l : List α) :
    ∃ m, listMin (x :: l) = some m ∧ m ∈ x :: l ∧ ∀ y ∈ x :: l, m ≤ y :=
  ⟨l.foldl min x, rfl, foldl_min_mem x l, fun y hy => foldl_min_le x y l hy⟩

lemma listMax_spec {α : Type} [LinearOrder α] (x : α) (l : List α) :
    ∃ M, listMax (x :: l) = some M ∧ M ∈ x :: l ∧ ∀ y ∈ x :: l, y ≤ M :=
  ⟨l.foldl max x, rfl, foldl_max_mem x l, fun y hy => le_foldl_max x y l hy⟩

lemma mem_insertLe {α : Type} (le : α → α → Bool) (a x : α) (l : List α) :
    x ∈ insertLe le a l ↔ x = a ∨ x ∈ l := by
  induction l with
  | nil => simp [insertLe]
  | cons b t ih =>
    by_cases h : le a b = true
    · simp [insertLe, h]
    · simp only [insertLe, if_neg h, List.mem_cons, ih]
      tauto

lemma mem_sortLe {α : Type} (le : α → α → Bool) (x : α) (l : List α) :
    x ∈ sortLe le l ↔ x ∈ l := by
  induction l with
  | nil => simp [sortLe]
  | cons b t ih =>
    simp only [sortLe, List.foldr_cons, mem_insertLe, List.mem_cons]
    rw [show t.foldr (insertLe le) [] = sortLe le t from rfl, ih]

lemma mem_dedupFirst_aux {α : Type} [DecidableEq α] (x : α) (l acc : List α) :
    x ∈ l.foldl (fun acc a => if a ∈ acc then acc else acc ++ [a]) acc ↔
      x ∈ acc ∨ x ∈ l := by
  induction l generalizing acc with
  | nil => simp
  | cons a t ih =>
    rw [List.foldl_cons]
    by_cases h : a ∈ acc
    · rw [if_pos h, ih]
      constructor
      · rintro (h1 | h1)
        · exact Or.inl h1
        · exact Or.inr (List.mem_cons.2 (Or.inr h1))
      · rintro (h1 | h1)
        · exact Or.inl h1
        · rcases List.mem_cons.1 h1 with rfl | h2
          · exact Or.inl h
          · exact Or.inr h2
    · rw [if_neg h, ih]
      simp only [List.mem_append, List.mem_singleton, List.mem_cons]
      tauto

lemma mem_dedupFirst {α : Type} [DecidableEq α] (x : α) (l : List α) :
    x ∈ dedupFirst l ↔ x ∈ l := by
  rw [dedupFirst, mem_dedupFirst_aux]
  simp

lemma foldl_max_le_nat (lst : List Nat) (a b : Nat) (ha : a ≤ b)
    (h : ∀ y ∈ lst, y ≤ b) : lst.foldl max a ≤ b := by
  induction lst generalizing a with
  | nil => simpa using ha
  | cons c t ih =>
    rw [List.foldl_cons]
    exact ih (max a c) (max_le ha (h c (List.mem_cons.2 (Or.inl rfl))))
      (fun y hy => h y (List.mem_cons.2 (Or.inr hy)))

lemma countIn_le_maxCount (l : List String) (d : String) (hd : d ∈ l) :
    countIn l d ≤ maxCount l := by
  have : countIn l d ∈ l.map (countIn l) := List.mem_map.2 ⟨d, hd, rfl⟩
  exact le_foldl_max 0 (countIn l d) (l.map (countIn l)) (List.mem_cons.2 (Or.inr this))

lemma maxCount_le_of_dominant (l : List String) (c : String)
    (h : ∀ d ∈ l, countIn l d ≤ countIn l c) : maxCount l ≤ countIn l c := by
  refine foldl_max_le_nat (l.map (countIn l)) 0 (countIn l c) (Nat.zero_le _) ?_
  intro y hy
  rcases List.mem_map.1 hy with ⟨d, hd, rfl⟩
  exact h d hd

/-! ## Claim C1 -/

/-- C1: the claim states that connection weights are the sizes of the
intersections of the events' member-message-id sets and that exactly the
positive-weight pairs are kept. The code violates this: _get_events
(line 189) replaces every message_ids cell by a comma-joined string before
_get_event_connections intersects them with Python set(), so the weight is
the number of distinct shared characters. In this run the two events have
member ids [1, 2] and [3, 4] (stringified to '1, 2' and '3, 4'): they
share no message, yet the pipeline keeps their pair with weight 2 (the
shared comma and space), while the spec weight is 0. -/
theorem connection_weight_char_bug :
    (runPipeline factorySplit221 [] fiveGlobalRaws "x" 32640 5).map outMsgIdStrs
      = some ["1, 2".data, "3, 4".data, "5".data]
    ∧ (runPipeline factorySplit221 [] fiveGlobalRaws "x" 32640 5).map outConns
      = some [{ weight := 2, a := "0_global_0".data, b := "1_global_0".data }]
    ∧ specSharedCount [1, 2] [3, 4] = 0 := by decide

/-! ## Claim C2 -/

/-- C2: the claim states that run applies the population rebalancing stage
between connection construction and finalization, so that each final
population is the cross-level de-duplicated value, truncated to an
integer. The code violates this: run (lines 277-298) never invokes
_rebalance_events, so the returned population column is the raw
potential_population. In this run the building-level event keeps the
non-integral ratio 2/5 (its denominator is 5, so it is not the truncation
of anything), and the coarser-level events keep 1 with nothing subtracted. -/
theorem rebalancing_never_applied_bug :
    (runPipeline factoryOneCluster twoBuildings fiveB0Raws "x" 32640 5).map outPopulations
      = some [1, 1, 1, 2/5]
    ∧ ((2 : ℚ)/5).den ≠ 1 := by decide

/-! ## Claim C3 -/

/-- C3: the claim states that after min-max normalization the minimum of
the intensity column is 0 and its maximum 1 across the final
post-outlier-filtering event set. The code normalizes inside _get_events
(lines 190-191), before _filter_outliers runs; here the noise event
holds the minimum intensity, so after filtering the surviving normalized
intensities are 1/2 and 1 and no event attains 0. -/
theorem normalization_before_filter_cex :
    (runPipeline factoryNoise123 [] sixGlobalRaws "x" 32640 5).map outIntensities
      = some [some (1/2 : ℚ), some 1]
    ∧ some (0 : ℚ) ∉ [some ((1 : ℚ)/2), some (1 : ℚ)] := by decide

/-- C3 amended: min-max normalization attains minimum 0 and maximum 1, and
stays within [0, 1], across the event set present at normalization time
(before outlier filtering, which can remove the extremes); and when every
value in the column ties, every normalized entry is NaN (0/0), not 0. -/
theorem normalization_extremes (xs : List ℚ) (hne : xs ≠ []) :
    ((listMax xs).getD 0 ≠ (listMin xs).getD 0 →
      some 0 ∈ normCol xs ∧ some 1 ∈ normCol xs ∧
      ∀ v ∈ normCol xs, ∃ q, v = some q ∧ 0 ≤ q ∧ q ≤ 1)
    ∧ ((listMax xs).getD 0 = (listMin xs).getD 0 →
      ∀ v ∈ normCol xs, v = none) := by
  rcases xs with _ | ⟨x, t⟩
  · exact absurd rfl hne
  · obtain ⟨m, hm, hmmem, hmle⟩ := listMin_spec x t
    obtain ⟨M, hM, hMmem, hMle⟩ := listMax_spec x t
    constructor
    · intro hne2
      have hMm : (listMax (x :: t)).getD 0 = M := by rw [hM]; rfl
      have hmm : (listMin (x :: t)).getD 0 = m := by rw [hm]; rfl
      rw [hMm, hmm] at hne2
      have hlt : m < M := lt_of_le_of_ne (hmle M hMmem) (fun h => hne2 (h.symm))
      have hpos : 0 < M - m := by linarith
      have hcol : normCol (x :: t) =
          (x :: t).map (fun y => some ((y - m) / (M - m))) := by
        rw [normCol]
        simp only [hm, hM, Option.getD_some]
        rw [if_neg (by intro h; exact hne2 h)]
      refine ⟨?_, ?_, ?_⟩
      · rw [hcol]
        refine List.mem_map.2 ⟨m, hmmem, ?_⟩
        rw [sub_self, zero_div]
      · rw [hcol]
        refine List.mem_map.2 ⟨M, hMmem, ?_⟩
        rw [div_self (ne_of_gt hpos)]
      · intro v hv
        rw [hcol] at hv
        rcases List.mem_map.1 hv with ⟨y, hy, rfl⟩
        refine ⟨(y - m) / (M - m), rfl, ?_, ?_⟩
        · exact div_nonneg (by linarith [hmle y hy]) (le_of_lt hpos)
        · rw [div_le_one hpos]
          linarith [hMle y hy]
    · intro heq v hv
      have hMm : (listMax (x :: t)).getD 0 = M := by rw [hM]; rfl
      have hmm : (listMin (x :: t)).getD 0 = m := by rw [hm]; rfl
      rw [hMm, hmm] at heq
      rw [normCol] at hv
      simp only [hm, hM, Option.getD_some] at hv
      rw [if_pos heq] at hv
      rcases List.mem_map.1 hv with ⟨y, hy, rfl⟩
      rfl

/-- Witness for normalization_extremes at the column [1, 3, 2]. -/
theorem normalization_extremes_witness :
    some (0 : ℚ) ∈ normCol [1, 3, 2] ∧ some (1 : ℚ) ∈ normCol [1, 3, 2] := by
  have h := (normalization_extremes [1, 3, 2] (by decide)).1 (by decide)
  exact ⟨h.1, h.2.1⟩

/-! ## Claim C4 -/

/-- C4: for an event with population p, when the outgoing connections
(direction a == event id) are non-empty and p is at least the sum of
potential populations of the connected events at the strictly finer
levels, _rebalance returns exactly p minus that sum; and with no outgoing
connections it returns p unchanged. -/
theorem rebalance_direct_subtraction (conns : List Conn) (events : List Event0)
    (lvl : Level) (p : ℚ) (eid : List Char) :
    ((conns.filter (fun c => c.a == eid)).map (fun c => c.b) ≠ [] →
      ((events.filter (fun e =>
          decide (e.id ∈ (conns.filter (fun c => c.a == eid)).map (fun c => c.b)) &&
          decide (e.level ∈ levelsBefore lvl))).map
        (fun e => e.potential_population)).sum ≤ p →
      rebalance conns events (levelsBefore lvl) p eid =
        p - ((events.filter (fun e =>
          decide (e.id ∈ (conns.filter (fun c => c.a == eid)).map (fun c => c.b)) &&
          decide (e.level ∈ levelsBefore lvl))).map
          (fun e => e.potential_population)).sum)
    ∧ ((conns.filter (fun c => c.a == eid)).map (fun c => c.b) = [] →
      rebalance conns events (levelsBefore lvl) p eid = p) := by
  constructor
  · intro hne hle
    rw [rebalance]
    rw [if_pos (List.length_pos.2 hne), if_pos hle]
  · intro h0
    rw [rebalance, h0]
    simp

/-- Witness events and connections for the rebalance theorem: one
connection from event e1 to the building-level event e2 with potential
population 3. -/
def rebConnsW : List Conn := [{ weight := 1, a := "e1".data, b := "e2".data }]

/-- The building-level event referenced by the witness connection. -/
def rebEventW : Event0 :=
  { name := "0_x".data
    repDocs := []
    level := Level.building
    id := "e2".data
    count := 5
    potential_population := 3
    message_ids := [1]
    duration := 0
    category := "c"
    importance := 1/2 }

/-- Witness for rebalance_direct_subtraction: a road-level event with
population 10 and one accounted finer event of population 3 rebalances to
7; an event with no outgoing connections keeps its population. -/
theorem rebalance_direct_subtraction_witness :
    rebalance rebConnsW [rebEventW] (levelsBefore Level.road) 10 ("e1".data) = 7
    ∧ rebalance rebConnsW [rebEventW] (levelsBefore Level.road) 10 ("zz".data) = 10 := by
  constructor
  · have h := (rebalance_direct_subtraction rebConnsW [rebEventW] Level.road 10
      ("e1".data)).1 (by decide) (by decide)
    exact h.trans (by decide)
  · exact (rebalance_direct_subtraction rebConnsW [rebEventW] Level.road 10
      ("zz".data)).2 (by decide)

/-! ## Claim C5 -/

/-- C5: the potential-population assignment of _event_from_object. Events
extracted at level global or road always get potential population 1. For
link and building: when no buildings row matches the object (no parent id
resolvable, IndexError) the event is reclassified to global with
population 1; when the parent id resolves and both population lookups
succeed, a zero denominator yields population 1 (ZeroDivisionError branch)
and otherwise the ratio pop[level][oid] / pop[parent_level][parent] at the
original level. (A parent row whose id cell is NaN makes the uncaught
KeyError path none: no event row is produced at all, so the claim, which
quantifies over extracted events, is not contradicted there.) -/
theorem potential_population_assignment (bs : List Building) (oid : Option Nat)
    (lvl : Level) :
    (popAssign bs Level.global oid = some (Level.global, 1))
    ∧ (popAssign bs Level.road oid = some (Level.road, 1))
    ∧ (lvl = Level.link ∨ lvl = Level.building →
      (((bs.filter (fun b => optEq (buildingLevelId lvl b) oid)).map
          (buildingLevelId (nextLevel lvl))) = [] →
        popAssign bs lvl oid = some (Level.global, 1))
      ∧ (∀ hid n d,
          ((bs.filter (fun b => optEq (buildingLevelId lvl b) oid)).map
            (buildingLevelId (nextLevel lvl))).head? = some hid →
          popLookup bs lvl oid = some n →
          popLookup bs (nextLevel lvl) hid = some d →
          (d = 0 → popAssign bs lvl oid = some (lvl, 1))
          ∧ (d ≠ 0 → popAssign bs lvl oid = some (lvl, n / d)))) := by
  refine ⟨rfl, rfl, ?_⟩
  intro hl
  rcases hl with rfl | rfl
  · constructor
    · intro hpar
      simp only [popAssign]
      rw [hpar]
      rfl
    · intro hid n d hh hn hd
      constructor
      · intro hd0
        simp only [popAssign, hh, hn, hd]
        rw [if_pos hd0]
      · intro hd0
        simp only [popAssign, hh, hn, hd]
        rw [if_neg hd0]
  · constructor
    · intro hpar
      simp only [popAssign]
      rw [hpar]
      rfl
    · intro hid n d hh hn hd
      constructor
      · intro hd0
        simp only [popAssign, hh, hn, hd]
        rw [if_pos hd0]
      · intro hd0
        simp only [popAssign, hh, hn, hd]
        rw [if_neg hd0]

/-- Witness for potential_population_assignment: building 0 of the
two-building table has population 2 on a link of population 5, so its
building-level events get potential population 2/5; an unmatched object id
falls back to a global event with population 1. -/
theorem potential_population_assignment_witness :
    popAssign twoBuildings Level.building (some 0) = some (Level.building, 2/5)
    ∧ popAssign twoBuildings Level.building (some 9) = some (Level.global, 1) := by
  constructor
  · exact (((potential_population_assignment twoBuildings (some 0)
      Level.building).2.2 (Or.inr rfl)).2 (some 0) 2 5 (by decide) (by decide)
      (by decide)).2 (by decide)
  · exact ((potential_population_assignment twoBuildings (some 9)
      Level.building).2.2 (Or.inr rfl)).1 (by decide)

/-! ## Claim C6 -/

/-- C6: the claim states that an object with fewer member messages than the
configured minimum cluster size (the min_event_size argument of run)
produces no event. The code gates the skip on the hard-coded constant 5
(line 131); min_event_size only configures the HDBSCAN model (line 116).
Here run is called with min_event_size 7 on an object with 6 member
messages, and the clustering splits them into two clusters: two events are
produced for that object. -/
theorem minimum_size_gate_cex :
    (runPipeline factoryHalves [] sixGlobalRaws "x" 32640 7).map outEventsCount
      = some 2
    ∧ (localMessages (preprocess [] sixGlobalRaws) Level.global (some 0)).length = 6
    ∧ 6 < 7 := by decide

/-- C6 amended: the extraction skip gate is the hard-coded constant 5: an
object whose member-message set has fewer than 5 elements produces no
event, whatever min_event_size was passed to run (which only parameterizes
the clustering model construction). -/
theorem skip_below_five (oracle : Oracle) (bs : List Building) (msgs : List Msg)
    (oid : Option Nat) (lvl : Level)
    (h : (localMessages msgs lvl oid).length < 5) :
    eventFromObject oracle bs msgs oid lvl = Except.ok none := by
  have h5 : ¬ 5 ≤ ((localMessages msgs lvl oid).map (fun m => m.text)).length := by
    rw [List.length_map]
    omega
  dsimp only [eventFromObject]
  rw [if_neg h5]

/-- Witness for skip_below_five: three messages are below the hard-coded
gate and produce no event. -/
theorem skip_below_five_witness :
    eventFromObject (factoryHalves 5) []
      (preprocess [] [mkRawGlobal 1, mkRawGlobal 2, mkRawGlobal 3])
      (some 0) Level.global = Except.ok none :=
  skip_below_five (factoryHalves 5) []
    (preprocess [] [mkRawGlobal 1, mkRawGlobal 2, mkRawGlobal 3])
    (some 0) Level.global (by decide)

/-! ## Claim C7 -/

/-- An event row is well formed when its name and id both start with the
decimal form of the same cluster label followed by an underscore, exactly
as _event_from_object builds them (name from the summary table convention,
id at line 145). -/
def EventWF (e : EventF) : Prop :=
  ∃ t sfx rest, e.name = intChars t ++ '_' :: sfx ∧ e.id = intChars t ++ '_' :: rest

lemma take_two_after_label (s x y : List Char)
    (h : (s ++ '_' :: x).take 2 = ['-', '1']) :
    (s ++ '_' :: y).take 2 = ['-', '1'] := by
  match s with
  | [] =>
    exfalso
    simp only [List.nil_append, List.take_succ_cons, List.take_zero] at h
    exact absurd (List.cons.inj h).1 (by decide)
  | [c] =>
    exfalso
    simp only [List.cons_append, List.nil_append, List.take_succ_cons,
      List.take_zero] at h
    exact absurd ((List.cons.inj h).2) (by intro hh; exact absurd ((List.cons.inj hh).1) (by decide))
  | c1 :: c2 :: t =>
    simp only [List.cons_append, List.take_succ_cons, List.take_zero] at h ⊢
    exact h

/-- C7: after _filter_outliers no surviving event has a name starting with
the noise label -1, and no surviving connection references a removed event
on either endpoint (removed events have noise ids because name and id
share the same label prefix). -/
theorem noise_filter_consistency (evs : List EventF) (conns : List Conn)
    (hwf : ∀ e ∈ evs, EventWF e) :
    (∀ e ∈ (filterOutliers evs conns).1, ¬ e.name.take 2 = ['-', '1'])
    ∧ (∀ c ∈ (filterOutliers evs conns).2, ∀ e ∈ evs,
        e.name.take 2 = ['-', '1'] → c.a ≠ e.id ∧ c.b ≠ e.id) := by
  constructor
  · intro e he
    have hp := (List.mem_filter.1 he).2
    simp only [noiseB, Bool.not_eq_eq_eq_not, Bool.not_true] at hp
    intro hcontra
    rw [hcontra] at hp
    simp at hp
  · intro c hc e he hnoise
    obtain ⟨t, sfx, rest, hn, hi⟩ := hwf e he
    have hid : e.id.take 2 = ['-', '1'] := by
      rw [hi]
      exact take_two_after_label (intChars t) sfx rest (by rw [← hn]; exact hnoise)
    have hca := (List.mem_filter.1 (List.mem_filter.1 hc).1).2
    have hcb := (List.mem_filter.1 hc).2
    constructor
    · intro heq
      rw [noiseB, heq, hid] at hca
      simp at hca
    · intro heq
      rw [noiseB, heq, hid] at hcb
      simp at hcb

/-- A noise event for the C7 witness. -/
def evNoiseW : EventF :=
  { name := "-1_a".data
    docs := []
    level := Level.global
    id := "-1_global_0".data
    population := 1
    importance := 0
    risk := none
    message_ids := "1".data
    intensityN := none
    durationN := none }

/-- A regular event for the C7 witness. -/
def evOkW : EventF :=
  { name := "0_b".data
    docs := []
    level := Level.global
    id := "0_global_0".data
    population := 1
    importance := 0
    risk := none
    message_ids := "2".data
    intensityN := none
    durationN := none }

/-- A second regular event for the C7 witness. -/
def evOk2W : EventF :=
  { name := "1_c".data
    docs := []
    level := Level.global
    id := "1_global_0".data
    population := 1
    importance := 0
    risk := none
    message_ids := "3".data
    intensityN := none
    durationN := none }

/-- A connection touching the noise event for the C7 witness. -/
def connNoiseW : Conn :=
  { weight := 2, a := "0_global_0".data, b := "-1_global_0".data }

/-- A connection between the two regular events for the C7 witness. -/
def connOkW : Conn :=
  { weight := 2, a := "0_global_0".data, b := "1_global_0".data }

/-- Witness for noise_filter_consistency on three concrete events, one
connection into the noise event (removed) and one surviving connection. -/
theorem noise_filter_consistency_witness :
    ¬ (evOkW.name.take 2 = ['-', '1']) ∧
      connOkW.a ≠ evNoiseW.id ∧ connOkW.b ≠ evNoiseW.id := by
  have hwf : ∀ e ∈ [evNoiseW, evOkW, evOk2W], EventWF e := by
    intro e he
    simp only [List.mem_cons, List.not_mem_nil, or_false] at he
    rcases he with rfl | rfl | rfl
    · exact ⟨-1, "a".data, "global_0".data, by decide, by decide⟩
    · exact ⟨0, "b".data, "global_0".data, by decide, by decide⟩
    · exact ⟨1, "c".data, "global_0".data, by decide, by decide⟩
  have h := noise_filter_consistency [evNoiseW, evOkW, evOk2W]
    [connNoiseW, connOkW] hwf
  exact ⟨h.1 evOkW (by decide), h.2 connOkW (by decide) evNoiseW (by decide) (by decide)⟩

/-! ## Claim C8 -/

/-- C8: after _preprocess every message has global_id 0, and the fill of
lines 103-104 only touches NaN cells, so a direct spatial-join link_id or
road_id is always kept over the building-inherited value. -/
theorem preprocess_invariants (bs : List Building) (raws : List RawMsg) :
    (∀ m ∈ preprocess bs raws, m.global_id = 0)
    ∧ (∀ r : RawMsg, ∀ l : Nat, r.linkDirect = some l →
        (joinRow bs r).linkDirect = some l)
    ∧ (∀ r : RawMsg, ∀ l : Nat, r.roadDirect = some l →
        (joinRow bs r).roadDirect = some l) := by
  refine ⟨?_, ?_, ?_⟩
  · intro m hm
    rcases List.mem_filterMap.1 hm with ⟨j, _, hmk⟩
    cases ht : j.text with
    | none => rw [ht] at hmk; simp at hmk
    | some t =>
      rw [ht] at hmk
      simp only [Option.some.injEq] at hmk
      rw [← hmk]
  · intro r l h
    simp [joinRow, h]
  · intro r l h
    simp [joinRow, h]

/-- One building with link 7 and road 8 for the C8 witness. -/
def bldW : Building :=
  { building_id := 0, population_balanced := 2, link_id := some 7, road_id := some 8 }

/-- A raw message with a direct link join (3) and a building whose own link
is 7, for the C8 witness. -/
def rawBothW : RawMsg :=
  { message_id := 1
    text := some "1"
    building_id := some 0
    linkDirect := some 3
    roadDirect := none
    date_time := 0
    cats := "c" }

/-- Witness for preprocess_invariants: the direct link 3 beats the
building-inherited 7, and the preprocessed message has global_id 0. -/
theorem preprocess_invariants_witness :
    (joinRow [bldW] rawBothW).linkDirect = some 3
    ∧ ∀ m ∈ preprocess [bldW] [rawBothW], m.global_id = 0 :=
  ⟨(preprocess_invariants [bldW] [rawBothW]).2.1 rawBothW 3 rfl,
   fun m hm => (preprocess_invariants [bldW] [rawBothW]).1 m hm⟩

/-! ## Claim C9 -/

/-- Projection of an extraction result onto the category column. -/
def producedCategories (x : Except Unit (Option (List Event0))) :
    Option (List String) :=
  match x with
  | Except.ok (some l) => some (l.map (fun e => e.category))
  | _ => none

/-- Five global messages whose categories are B, A, A, B, C. -/
def fiveCatsRaws : List RawMsg :=
  [{ message_id := 1, text := some "1", building_id := none, linkDirect := none,
     roadDirect := none, date_time := 0, cats := "B" },
   { message_id := 2, text := some "2", building_id := none, linkDirect := none,
     roadDirect := none, date_time := 0, cats := "A" },
   { message_id := 3, text := some "3", building_id := none, linkDirect := none,
     roadDirect := none, date_time := 0, cats := "A" },
   { message_id := 4, text := some "4", building_id := none, linkDirect := none,
     roadDirect := none, date_time := 0, cats := "B" },
   { message_id := 5, text := some "5", building_id := none, linkDirect := none,
     roadDirect := none, date_time := 0, cats := "C" }]

/-- C9: the claim states that an event's category is the statistical mode
of the member categories with ties broken by the first-encountered one (a
single label). The code violates this on ties: Series.mode returns all
tied values sorted ascending and line 167 comma-joins them. Here the
members have categories B, A, A, B, C: the extracted event's category is
the string 'A, B', while the first-encountered mode is 'B', and 'A, B' is
not a member category at all. -/
theorem category_mode_join_cex :
    producedCategories (eventFromObject (factoryOneCluster 5) []
      (preprocess [] fiveCatsRaws) (some 0) Level.global) = some ["A, B"]
    ∧ specCategory ["B", "A", "A", "B", "C"] = "B"
    ∧ ("A, B" : String) ∉ ["B", "A", "A", "B", "C"] := by decide

/-- C9 amended: the category cell of an event is the comma-join of all
tied modes of the member categories in ascending order: a category is
among the joined modes exactly when it occurs in the member list with
maximal frequency, and when the mode is unique the category is that single
label. -/
theorem category_modes_characterization (l : List String) (c : String) :
    (modesList l = [c] → eventCategory l = c)
    ∧ (c ∈ modesList l ↔ c ∈ l ∧ ∀ d ∈ l, countIn l d ≤ countIn l c) := by
  constructor
  · intro h
    rw [eventCategory, h]
    rfl
  · rw [modesList, mem_sortLe, List.mem_filter, mem_dedupFirst]
    constructor
    · rintro ⟨hc, hmax⟩
      refine ⟨hc, fun d hd => ?_⟩
      calc countIn l d ≤ maxCount l := countIn_le_maxCount l d hd
        _ = countIn l c := by
          have hmax2 : countIn l c = maxCount l := by simpa using hmax
          rw [hmax2]
    · rintro ⟨hc, hdom⟩
      refine ⟨hc, ?_⟩
      have : countIn l c = maxCount l :=
        le_antisymm (countIn_le_maxCount l c hc) (maxCount_le_of_dominant l c hdom)
      simp [this]

/-- Witness for category_modes_characterization: with members B, A, A the
mode is unique and the category is the single label A. -/
theorem category_modes_characterization_witness :
    eventCategory ["B", "A", "A"] = "A"
    ∧ "A" ∈ modesList ["B", "A", "A"] :=
  ⟨(category_modes_characterization ["B", "A", "A"] "A").1 (by decide),
   ((category_modes_characterization ["B", "A", "A"] "A").2).mpr
     ⟨by decide, by decide⟩⟩

/-! ## Claim C10 -/

/-- C10: whatever city_crs is passed to run, a successful run assigns the
fixed crs 32636 to the connections table (line 213) and 4326 to the events
(line 186) and messages (line 274) tables. -/
theorem crs_assignment (factory : Nat → Oracle) (bs : List Building)
    (raws : List RawMsg) (nm : String) (crs k : Nat)
    (h : runPipeline factory bs raws nm crs k ≠ none) :
    (runPipeline factory bs raws nm crs k).map outConnectionsCrs = some 32636
    ∧ (runPipeline factory bs raws nm crs k).map outEventsCrs = some 4326
    ∧ (runPipeline factory bs raws nm crs k).map outMessagesCrs = some 4326 := by
  rcases hr : runPipeline factory bs raws nm crs k with _ | o
  · exact absurd hr h
  · dsimp only [runPipeline] at hr
    split at hr
    · exact absurd hr (by simp)
    · split at hr
      · exact absurd hr (by simp)
      · split at hr
        · exact absurd hr (by simp)
        · rw [Option.some.injEq] at hr
          rw [← hr]
          exact ⟨rfl, rfl, rfl⟩

/-- Witness for crs_assignment on a successful six-message run. -/
theorem crs_assignment_witness :
    runPipeline factoryHalves [] sixGlobalRaws "x" 32640 7 ≠ none
    ∧ (runPipeline factoryHalves [] sixGlobalRaws "x" 32640 7).map outConnectionsCrs
        = some 32636 :=
  ⟨by decide,
   (crs_assignment factoryHalves [] sixGlobalRaws "x" 32640 7 (by decide)).1⟩

/-- Every event row produced by _event_from_object is well formed in the
sense used by the noise-filter theorem: its name and id start with the
same decimal cluster label followed by an underscore (this discharges the
hypothesis of noise_filter_consistency for pipeline-produced events). -/
lemma eventFromObject_rows_wf (oracle : Oracle) (bs : List Building)
    (msgs : List Msg) (oid : Option Nat) (lvl : Level) (rows : List Event0)
    (h : eventFromObject oracle bs msgs oid lvl = Except.ok (some rows)) :
    ∀ e ∈ rows, ∃ t sfx rest,
      e.name = intChars t ++ '_' :: sfx ∧ e.id = intChars t ++ '_' :: rest := by
  dsimp only [eventFromObject] at h
  split at h
  · split at h
    · simp at h
    · split at h
      · simp at h
      · simp only [Except.ok.injEq, Option.some.injEq] at h
        subst h
        intro e he
        rcases List.mem_map.1 he with ⟨r, _, rfl⟩
        exact ⟨r.topic, r.nameSuffix, levelChars lvl ++ '_' :: oidChars oid, rfl, rfl⟩
  · simp at h
